import Mathlib

/-!
# Verification of the tree-sitter-htmlmustache external scanner

A shallow embedding of `src/scanner.c` and `src/mustache_tag.h` (the
dual-stack external scanner of the htmlmustache grammar), with theorems
settling the specification's claims about it.

Modelling conventions:
* C characters and bytes are `Nat`; a store into a `char` is `% 256`.
* The lexer (`TSLexer`) is a cursor over a list of codepoints;
  `lexer->lookahead` is `0` past the end of input, `lexer->eof` compares the
  cursor with the input length, and `advance`/`skip` move the cursor.
* Character-class functions (`iswspace`, `iswalnum`, `towupper`) are modelled
  on the ASCII range (the "C" locale behaviour).
* Growable arrays (`Array(Tag)`, `Array(MustacheTag)`, `String`) are lists,
  index `i` of the list being `contents[i]`; `array_back` is `getLast?`,
  `array_push` appends, `array_pop` is `dropLast`.
* The serialization buffer is the list of bytes written, in order; the C
  code writes contiguously from index 0 (the two retro-patched count fields
  occupy reserved slots), so the list of written bytes determines the buffer
  contents and the returned size.  The C read cursor of `deserialize`
  corresponds to consuming a byte list from the front.
* C loops of unbounded iteration count are given a fuel argument; the
  wrappers pass `input.length - pos`, which is exact: every loop advances the
  cursor on each iteration it continues, so the fuel never runs out before
  the loop's own exit condition fires.
* `tag.h` is not part of the repository sources; the definitions taken from
  it are modelled from the spec and say so in their doc comments.
-/

namespace HtmlMustache

/-- The `TokenType` enum of `scanner.c`. -/
inductive TokenType where
  | HTML_START_TAG_NAME
  | HTML_SCRIPT_START_TAG_NAME
  | HTML_STYLE_START_TAG_NAME
  | HTML_END_TAG_NAME
  | HTML_ERRONEOUS_END_TAG_NAME
  | HTML_SELF_CLOSING_TAG_DELIMITER
  | HTML_IMPLICIT_END_TAG
  | HTML_RAW_TEXT
  | HTML_COMMENT
  | MUSTACHE_START_TAG_NAME
  | MUSTACHE_END_TAG_NAME
  | MUSTACHE_ERRONEOUS_END_TAG_NAME
  | MUSTACHE_IDENTIFIER_CONTENT
deriving DecidableEq, Repr

export TokenType (HTML_START_TAG_NAME HTML_SCRIPT_START_TAG_NAME
  HTML_STYLE_START_TAG_NAME HTML_END_TAG_NAME HTML_ERRONEOUS_END_TAG_NAME
  HTML_SELF_CLOSING_TAG_DELIMITER HTML_IMPLICIT_END_TAG HTML_RAW_TEXT
  HTML_COMMENT MUSTACHE_START_TAG_NAME MUSTACHE_END_TAG_NAME
  MUSTACHE_ERRONEOUS_END_TAG_NAME MUSTACHE_IDENTIFIER_CONTENT)

/-- C `iswspace` on the ASCII range ("C" locale): space and the five control
whitespace characters 9..13. -/
def iswspace (c : Nat) : Bool := c == 32 || (9 ≤ c && c ≤ 13)

/-- C `iswalnum` on the ASCII range: digits and latin letters. -/
def iswalnum (c : Nat) : Bool :=
  (48 ≤ c && c ≤ 57) || (65 ≤ c && c ≤ 90) || (97 ≤ c && c ≤ 122)

/-- C `towupper` on the ASCII range: maps lowercase latin letters up. -/
def towupper (c : Nat) : Nat := if 97 ≤ c && c ≤ 122 then c - 32 else c

/-- The lexer cursor handed to the scanner by the tree-sitter engine:
an input of codepoints, the cursor position, the `result_symbol` slot and
the `mark_end` position. -/
structure TSLexer where
  input : List Nat
  pos : Nat
  result_symbol : Option TokenType
  marked_end : Nat
deriving DecidableEq, Repr

/-- Field read `lexer->lookahead`: the codepoint at the cursor, 0 past end of input. -/
def lookahead (l : TSLexer) : Nat := (l.input.get? l.pos).getD 0

/-- Call `lexer->eof(lexer)`. -/
def atEof (l : TSLexer) : Bool := l.input.length ≤ l.pos

/-- Helper `advance(lexer)` (`lexer->advance(lexer, false)`). -/
def advance (l : TSLexer) : TSLexer := { l with pos := l.pos + 1 }

/-- Helper `skip(lexer)` (`lexer->advance(lexer, true)`); the skipped-whitespace
flag only affects token extents, which the claims do not mention. -/
def skip (l : TSLexer) : TSLexer := advance l

/-- Call `lexer->mark_end(lexer)`. -/
def markEnd (l : TSLexer) : TSLexer := { l with marked_end := l.pos }

/-- Assignment `lexer->result_symbol = t`. -/
def setResult (l : TSLexer) (t : TokenType) : TSLexer :=
  { l with result_symbol := some t }

/-- Modelled from the spec: `tag.h` is absent from the repository sources.
The spec describes a closed enumeration of element kinds; we model a kind as
a byte code.  The concrete ordinals are unknown, only their distinctness and
byte-sizedness matter to the claims. -/
abbrev TagType := Nat

/-- Modelled from the spec: the `HTML` kind (a root-structural kind). -/
def HTML : TagType := 1

/-- Modelled from the spec: the `HEAD` kind (a root-structural kind). -/
def HEAD : TagType := 2

/-- Modelled from the spec: the `BODY` kind (a root-structural kind). -/
def BODY : TagType := 3

/-- Modelled from the spec: the `SCRIPT` kind (raw-text element). -/
def SCRIPT : TagType := 4

/-- Modelled from the spec: the `STYLE` kind (raw-text element). -/
def STYLE : TagType := 5

/-- Modelled from the spec: the `BR` kind, a representative void kind. -/
def BR : TagType := 6

/-- Modelled from the spec: a representative ordinary (non-void) kind. -/
def DIVK : TagType := 7

/-- Modelled from the spec: the `CUSTOM` kind, carrying an owned name. -/
def CUSTOM : TagType := 127

/-- The `Tag` record of `tag.h`: a kind, and (used only when the kind is
`CUSTOM`) an owned byte sequence holding the uppercased tag name. -/
structure Tag where
  type : TagType
  custom_tag_name : List Nat
deriving DecidableEq, Repr

/-- Modelled from the spec: `tag_new()` of `tag.h` (absent from the
sources), a freshly-created empty tag: some fixed kind and an empty name. -/
def tag_new : Tag := { type := 0, custom_tag_name := [] }

/-- Modelled from the spec: `tag_eq` of `tag.h` (absent from the sources).
Two non-custom tags are equal iff their kind matches; two custom tags are
equal iff the kind matches and the names match byte-for-byte. -/
def tag_eq (a b : Tag) : Bool :=
  a.type == b.type &&
    (a.type != CUSTOM || a.custom_tag_name == b.custom_tag_name)

/-- The parts of `tag.h` whose bodies the spec leaves open (the keyword
table of `tag_for_name`, the void set of `tag_is_void`, the containment
table of `tag_can_contain`).  `scanner.c` only calls them, so the theorems
about `scanner.c`'s control flow quantify over an arbitrary such
environment. -/
structure TagEnv where
  forName : List Nat → Tag
  isVoid : Tag → Bool
  canContain : Tag → Tag → Bool

/-- The `MustacheTag` record of `mustache_tag.h`. -/
structure MustacheTag where
  tag_name : List Nat
  html_tag_stack_size : Nat
deriving DecidableEq, Repr

/-- Function `mustache_tag_new()` of `mustache_tag.h`: empty name,
`html_tag_stack_size = 0`. -/
def mustache_tag_new : MustacheTag := { tag_name := [], html_tag_stack_size := 0 }

/-- Function `mustache_tag_eq` of `mustache_tag.h`: sizes equal and `memcmp` of the
name bytes equal, i.e. name equality; `html_tag_stack_size` is ignored. -/
def mustache_tag_eq (a b : MustacheTag) : Bool := a.tag_name == b.tag_name

/-- The `Scanner` state of `scanner.c`: the open-element stack and the
open-section stack (index 0 is the bottom, `array_back` the top). -/
structure Scanner where
  tags : List Tag
  mustache_tags : List MustacheTag
deriving DecidableEq, Repr

/-! ## Serialization (`serialize` / `deserialize` of `scanner.c`)

`TREE_SITTER_SERIALIZATION_BUFFER_SIZE` comes from the engine's
`tree_sitter/parser.h` (an external collaborator, not repository code);
its value is 1024. -/

def TREE_SITTER_SERIALIZATION_BUFFER_SIZE : Nat := 1024

/-- C `strncpy(dst, src, n)` as the list of the `n` bytes stored: bytes of
`src` up to its first NUL, zero-filled from the first NUL on.  (`serialize`
always passes `n ≤ src.length`, so no out-of-bounds read arises.) -/
def strncpy_bytes : List Nat → Nat → List Nat
  | _, 0 => []
  | [], n + 1 => 0 :: strncpy_bytes [] n
  | c :: cs, n + 1 =>
      if c == 0 then List.replicate (n + 1) 0 else c :: strncpy_bytes cs n

/-- A `uint16_t` memcpy'd into the buffer, little-endian. -/
def u16le (n : Nat) : List Nat := [n % 256, n / 256 % 256]

/-- The entry-writing loop of `serialize` for the HTML tag stack: given the
tags still to write and the current write cursor `size`, returns the bytes
written and the number of entries written (`serialized_tag_count`'s final
increment count).  Mirrors `scanner.c` lines 43–63: a CUSTOM entry is
`type, name_length, name` (name length capped at `UINT8_MAX`, name copied
with `strncpy`), any other entry is its `type` byte; writing stops (break)
when the entry would reach the end of the buffer. -/
def serialize_html_tags : List Tag → Nat → List Nat × Nat
  | [], _ => ([], 0)
  | tag :: rest, size =>
      if tag.type == CUSTOM then
        let name_length := min tag.custom_tag_name.length 255
        if TREE_SITTER_SERIALIZATION_BUFFER_SIZE ≤ size + 2 + name_length then
          ([], 0)
        else
          let (bs, c) := serialize_html_tags rest (size + 2 + name_length)
          (tag.type % 256 :: name_length ::
            (strncpy_bytes tag.custom_tag_name name_length ++ bs), c + 1)
      else
        if TREE_SITTER_SERIALIZATION_BUFFER_SIZE ≤ size + 1 then
          ([], 0)
        else
          let (bs, c) := serialize_html_tags rest (size + 1)
          (tag.type % 256 :: bs, c + 1)

/-- The entry-writing loop of `serialize` for the mustache tag stack
(`scanner.c` lines 79–91): each entry is `name_length, name`. -/
def serialize_mustache_tags : List MustacheTag → Nat → List Nat × Nat
  | [], _ => ([], 0)
  | tag :: rest, size =>
      let name_length := min tag.tag_name.length 255
      if TREE_SITTER_SERIALIZATION_BUFFER_SIZE ≤ size + 1 + name_length then
        ([], 0)
      else
        let (bs, c) := serialize_mustache_tags rest (size + 1 + name_length)
        (name_length :: (strncpy_bytes tag.tag_name name_length ++ bs), c + 1)

/-- Count `tag_count` of `serialize`: the stack size capped at `UINT16_MAX`. -/
def ser_tag_count (s : Scanner) : Nat := min s.tags.length 65535

/-- Count `m_tag_count` of `serialize`. -/
def ser_m_tag_count (s : Scanner) : Nat := min s.mustache_tags.length 65535

/-- The HTML part of `serialize`'s entry loop, started at write cursor 4
(after the two count fields). -/
def ser_html (s : Scanner) : List Nat × Nat :=
  serialize_html_tags (s.tags.take (ser_tag_count s)) 4

/-- The mustache part of `serialize`'s entry loop; its write cursor starts
after the HTML part and the two mustache count fields. -/
def ser_mus (s : Scanner) : List Nat × Nat :=
  serialize_mustache_tags (s.mustache_tags.take (ser_m_tag_count s))
    (4 + (ser_html s).1.length + 4)

/-- Function `serialize` of `scanner.c`: the buffer contents (bytes in index order)
and the returned size.  Layout: `serialized_tag_count, tag_count`, the HTML
entries, `m_serialized_tag_count, m_tag_count`, the mustache entries; the
two serialized counts are patched into their reserved slots after the
corresponding loop.  The returned size is the write cursor: 4 header bytes,
the HTML entry bytes, 4 more header bytes, the mustache entry bytes. -/
def serialize (s : Scanner) : List Nat × Nat :=
  let (html_bytes, serialized_tag_count) := ser_html s
  let (m_bytes, m_serialized_tag_count) := ser_mus s
  (u16le serialized_tag_count ++ u16le (ser_tag_count s) ++ html_bytes ++
     u16le m_serialized_tag_count ++ u16le (ser_m_tag_count s) ++ m_bytes,
   4 + html_bytes.length + 4 + m_bytes.length)

/-- Read a little-endian `uint16_t` from the front of a byte list. -/
def read_u16 (bs : List Nat) : Nat := bs.headD 0 + 256 * (bs.tail.headD 0)

/-- The entry-reading loop of `deserialize` for the HTML tag stack
(`scanner.c` lines 121–132): reads `serialized_tag_count` entries, each a
`tag_new()` whose `type` is the next byte, with a length-prefixed name when
that byte is `CUSTOM`.  Consumes from the front of the byte list (the C
read cursor); returns the tags and the remaining bytes. -/
def deserialize_html_tags : Nat → List Nat → List Tag × List Nat
  | 0, bs => ([], bs)
  | n + 1, bs =>
      let t := bs.headD 0
      let bs1 := bs.tail
      if t == CUSTOM then
        let name_length := bs1.headD 0
        let name := (bs1.tail).take name_length
        let (rest, bs2) := deserialize_html_tags n (bs1.tail.drop name_length)
        ({ tag_new with type := t, custom_tag_name := name } :: rest, bs2)
      else
        let (rest, bs2) := deserialize_html_tags n bs1
        ({ tag_new with type := t } :: rest, bs2)

/-- The entry-reading loop of `deserialize` for the mustache tag stack
(`scanner.c` lines 154–162): each entry is a `mustache_tag_new()` with a
length-prefixed name. -/
def deserialize_mustache_tags : Nat → List Nat → List MustacheTag × List Nat
  | 0, bs => ([], bs)
  | n + 1, bs =>
      let name_length := bs.headD 0
      let name := (bs.tail).take name_length
      let (rest, bs2) := deserialize_mustache_tags n (bs.tail.drop name_length)
      ({ mustache_tag_new with tag_name := name } :: rest, bs2)

/-- Function `deserialize` of `scanner.c`: clears both stacks; on a non-empty buffer
reads `serialized_tag_count` and `tag_count`, then (when `tag_count > 0`)
reads the serialized entries and pads with `tag_new()` placeholders up to
`tag_count`; then the same for the mustache stack. -/
def deserialize (bs : List Nat) (length : Nat) : Scanner :=
  if length == 0 then { tags := [], mustache_tags := [] }
  else
    let serialized_tag_count := read_u16 bs
    let bs1 := bs.drop 2
    let tag_count := read_u16 bs1
    let bs2 := bs1.drop 2
    let (tags, bs3) :=
      if 0 < tag_count then
        let (ts, r) := deserialize_html_tags serialized_tag_count bs2
        (ts ++ List.replicate (tag_count - serialized_tag_count) tag_new, r)
      else ([], bs2)
    let m_serialized_tag_count := read_u16 bs3
    let bs4 := bs3.drop 2
    let m_tag_count := read_u16 bs4
    let bs5 := bs4.drop 2
    let mustache_tags :=
      if 0 < m_tag_count then
        (deserialize_mustache_tags m_serialized_tag_count bs5).1 ++
          List.replicate (m_tag_count - m_serialized_tag_count) mustache_tag_new
      else []
    { tags := tags, mustache_tags := mustache_tags }

/-! ## Sub-scanners of `scanner.c`

Each C `while` loop gets a fuel argument; the wrapper passes the remaining
input length, which suffices because every loop advances the cursor on each
continued iteration (the loop conditions all fail on `lookahead = 0` /
succeed on `eof`, reached at the end of the input). -/

/-- Loop of `scan_html_tag_name` (`scanner.c` lines 172–179): pushes
`towupper(lookahead)` (stored into a `char`) while the lookahead is
alphanumeric, `-` (45) or `:` (58). -/
def scan_html_tag_name_go : Nat → TSLexer → List Nat × TSLexer
  | 0, l => ([], l)
  | fuel + 1, l =>
      if iswalnum (lookahead l) || lookahead l == 45 || lookahead l == 58 then
        let (rest, l') := scan_html_tag_name_go fuel (advance l)
        (towupper (lookahead l) % 256 :: rest, l')
      else ([], l)

/-- Function `scan_html_tag_name` of `scanner.c`. -/
def scan_html_tag_name (l : TSLexer) : List Nat × TSLexer :=
  scan_html_tag_name_go (l.input.length - l.pos) l

/-- Loop of `scan_html_comment` (`scanner.c` lines 191–208): counts
consecutive dashes; a `>` (62) preceded by at least two dashes ends the
comment (set result, advance, mark end); any other character — including a
premature `>` — resets the dash count.  Stops with `false` at the end of
input (`while (lexer->lookahead)`). -/
def scan_html_comment_go : Nat → TSLexer → Nat → Bool × TSLexer
  | 0, l, _ => (false, l)
  | fuel + 1, l, dashes =>
      if lookahead l != 0 then
        if lookahead l == 45 then
          scan_html_comment_go fuel (advance l) (dashes + 1)
        else if lookahead l == 62 && 2 ≤ dashes then
          (true, markEnd (advance (setResult l HTML_COMMENT)))
        else scan_html_comment_go fuel (advance l) 0
      else (false, l)

/-- Function `scan_html_comment` of `scanner.c`: requires `--` immediately, then
scans for `-->`. -/
def scan_html_comment (l : TSLexer) : Bool × TSLexer :=
  if lookahead l != 45 then (false, l)
  else
    let l1 := advance l
    if lookahead l1 != 45 then (false, l1)
    else
      let l2 := advance l1
      scan_html_comment_go (l2.input.length - l2.pos) l2 0

/-- The closing delimiter `"</SCRIPT"` as byte codes. -/
def delimSCRIPT : List Nat := [60, 47, 83, 67, 82, 73, 80, 84]

/-- The closing delimiter `"</STYLE"` as byte codes. -/
def delimSTYLE : List Nat := [60, 47, 83, 84, 89, 76, 69]

/-- Loop of `scan_raw_text` (`scanner.c` lines 222–234): advances matching
the uppercased lookahead against the closing delimiter; on a full match
breaks without consuming the final delimiter character; on a mismatch
resets the match index, advances and re-marks the token end. -/
def scan_raw_text_go : Nat → TSLexer → List Nat → Nat → TSLexer
  | 0, l, _, _ => l
  | fuel + 1, l, delim, idx =>
      if lookahead l != 0 then
        if towupper (lookahead l) == delim.getD idx 0 then
          if idx + 1 == delim.length then l
          else scan_raw_text_go fuel (advance l) delim (idx + 1)
        else scan_raw_text_go fuel (markEnd (advance l)) delim 0
      else l

/-- Function `scan_raw_text` of `scanner.c`. -/
def scan_raw_text (s : Scanner) (l : TSLexer) : Bool × Scanner × TSLexer :=
  if s.tags.length == 0 then (false, s, l)
  else
    let l0 := markEnd l
    let delim :=
      if (match s.tags.getLast? with
          | some t => t.type == SCRIPT
          | none => false) then delimSCRIPT else delimSTYLE
    let l1 := scan_raw_text_go (l0.input.length - l0.pos) l0 delim 0
    (true, s, setResult l1 HTML_RAW_TEXT)

/-- Function `pop_html_tag` of `scanner.c`: pops (and frees) the stack top. -/
def pop_html_tag (s : Scanner) : Scanner := { s with tags := s.tags.dropLast }

/-- The part of `scan_implicit_end_tag` after the `/` / void-element
decision (`scanner.c` lines 260–299): scan a tag name; an empty name not at
end of input declines; classify the name; on a closing tag decline when it
equals the stack top, otherwise pop the top and emit the implicit end tag
when any stack entry's kind matches, else decline; on a non-closing tag pop
and emit when the stack top cannot contain the classified tag or when the
top is `HTML`/`HEAD`/`BODY` at end of input, else decline. -/
def scan_implicit_end_tag_rest (env : TagEnv) (s : Scanner) (is_closing_tag : Bool)
    (l : TSLexer) : Bool × Scanner × TSLexer :=
  let (tag_name, l2) := scan_html_tag_name l
  if tag_name.isEmpty && !atEof l2 then (false, s, l2)
  else
    let next_tag := env.forName tag_name
    if is_closing_tag then
      if (match s.tags.getLast? with
          | some top => tag_eq top next_tag
          | none => false) then (false, s, l2)
      else if s.tags.any (fun t => t.type == next_tag.type) then
        (true, pop_html_tag s, setResult l2 HTML_IMPLICIT_END_TAG)
      else (false, s, l2)
    else
      match s.tags.getLast? with
      | some parent =>
          if !env.canContain parent next_tag ||
              ((parent.type == HTML || parent.type == HEAD ||
                parent.type == BODY) && atEof l2) then
            (true, pop_html_tag s, setResult l2 HTML_IMPLICIT_END_TAG)
          else (false, s, l2)
      | none => (false, s, l2)

/-- Function `scan_implicit_end_tag` of `scanner.c` (lines 245–300): a `/` lookahead
is an explicit close attempt (consume it); otherwise a void stack top is
popped and emitted immediately; in either remaining case the decision moves
to `scan_implicit_end_tag_rest`. -/
def scan_implicit_end_tag (env : TagEnv) (s : Scanner) (l : TSLexer) :
    Bool × Scanner × TSLexer :=
  if lookahead l == 47 then
    scan_implicit_end_tag_rest env s true (advance l)
  else
    if (match s.tags.getLast? with
        | some parent => env.isVoid parent
        | none => false) then
      (true, pop_html_tag s, setResult l HTML_IMPLICIT_END_TAG)
    else scan_implicit_end_tag_rest env s false l

/-- Function `scan_start_tag_name` of `scanner.c`: scans a name, classifies it,
pushes the tag and emits the start-tag token for its kind. -/
def scan_start_tag_name (env : TagEnv) (s : Scanner) (l : TSLexer) :
    Bool × Scanner × TSLexer :=
  let (tag_name, l') := scan_html_tag_name l
  if tag_name.isEmpty then (false, s, l')
  else
    let tag := env.forName tag_name
    let sym :=
      if tag.type == SCRIPT then HTML_SCRIPT_START_TAG_NAME
      else if tag.type == STYLE then HTML_STYLE_START_TAG_NAME
      else HTML_START_TAG_NAME
    (true, { s with tags := s.tags ++ [tag] }, setResult l' sym)

/-- Function `scan_end_tag_name` of `scanner.c`: scans and classifies a name; pops
and emits the end-tag token when it equals the stack top, else emits the
erroneous-end-tag token without popping. -/
def scan_end_tag_name (env : TagEnv) (s : Scanner) (l : TSLexer) :
    Bool × Scanner × TSLexer :=
  let (tag_name, l') := scan_html_tag_name l
  if tag_name.isEmpty then (false, s, l')
  else
    let tag := env.forName tag_name
    if (match s.tags.getLast? with
        | some top => tag_eq top tag
        | none => false) then
      (true, pop_html_tag s, setResult l' HTML_END_TAG_NAME)
    else (true, s, setResult l' HTML_ERRONEOUS_END_TAG_NAME)

/-- Function `scan_self_closing_tag_delimiter` of `scanner.c`. -/
def scan_self_closing_tag_delimiter (s : Scanner) (l : TSLexer) :
    Bool × Scanner × TSLexer :=
  let l1 := advance l
  if lookahead l1 == 62 then
    let l2 := advance l1
    if 0 < s.tags.length then
      (true, pop_html_tag s, setResult l2 HTML_SELF_CLOSING_TAG_DELIMITER)
    else (true, s, l2)
  else (false, s, l1)

/-- Loop of `scan_mustache_tag_name` (`scanner.c` lines 358–368): pushes
the lookahead (stored into a `char`) while it is not `}` (125) and not end
of input, stopping early at whitespace. -/
def scan_mustache_tag_name_go : Nat → TSLexer → List Nat × TSLexer
  | 0, l => ([], l)
  | fuel + 1, l =>
      if lookahead l != 125 && !atEof l then
        if iswspace (lookahead l) then ([], l)
        else
          let (rest, l') := scan_mustache_tag_name_go fuel (advance l)
          (lookahead l % 256 :: rest, l')
      else ([], l)

/-- Function `scan_mustache_tag_name` of `scanner.c`. -/
def scan_mustache_tag_name (l : TSLexer) : List Nat × TSLexer :=
  scan_mustache_tag_name_go (l.input.length - l.pos) l

/-- A terminator of `scan_mustache_identifier_content`'s loop: `}` (125),
`.` (46) or whitespace. -/
def isMustacheIdTerm (c : Nat) : Bool := c == 125 || c == 46 || iswspace c

/-- Loop of `scan_mustache_identifier_content` (`scanner.c` lines
372–378): while the lookahead is not a terminator, return `false` at end
of input, otherwise consume and record that content was seen. -/
def scan_mustache_identifier_go : Nat → TSLexer → Bool → Bool × TSLexer
  | 0, l, _ => (false, l)
  | fuel + 1, l, has_content =>
      if !isMustacheIdTerm (lookahead l) then
        if atEof l then (false, l)
        else scan_mustache_identifier_go fuel (advance l) true
      else if has_content then (true, setResult l MUSTACHE_IDENTIFIER_CONTENT)
      else (false, l)

/-- Function `scan_mustache_identifier_content` of `scanner.c`: emits the
identifier-content token iff at least one character was consumed before a
terminator was reached. -/
def scan_mustache_identifier_content (l : TSLexer) : Bool × TSLexer :=
  scan_mustache_identifier_go (l.input.length - l.pos + 1) l false

/-- Function `scan_mustache_start_tag_name` of `scanner.c` (lines 386–397): scans a
section name; declines when empty; otherwise pushes a `mustache_tag_new()`
carrying the name (note: its `html_tag_stack_size` is left at the value
`mustache_tag_new` gives it) and emits the section-name token. -/
def scan_mustache_start_tag_name (s : Scanner) (l : TSLexer) :
    Bool × Scanner × TSLexer :=
  let (tag_name, l') := scan_mustache_tag_name l
  if tag_name.isEmpty then (false, s, l')
  else
    let tag := { mustache_tag_new with tag_name := tag_name }
    (true, { s with mustache_tags := s.mustache_tags ++ [tag] },
      setResult l' MUSTACHE_START_TAG_NAME)

/-- Function `scan_mustache_end_tag_name` of `scanner.c` (lines 399–419): scans a
section name; declines when empty; pops and emits the section-end token
when `mustache_tag_eq` matches the stack top, otherwise emits the
erroneous-section-end token leaving the stack unchanged. -/
def scan_mustache_end_tag_name (s : Scanner) (l : TSLexer) :
    Bool × Scanner × TSLexer :=
  let (tag_name, l') := scan_mustache_tag_name l
  if tag_name.isEmpty then (false, s, l')
  else
    let tag := { mustache_tag_new with tag_name := tag_name }
    if (match s.mustache_tags.getLast? with
        | some top => mustache_tag_eq top tag
        | none => false) then
      (true, { s with mustache_tags := s.mustache_tags.dropLast },
        setResult l' MUSTACHE_END_TAG_NAME)
    else (true, s, setResult l' MUSTACHE_ERRONEOUS_END_TAG_NAME)

/-- The whitespace-skipping loop at the top of `scan`. -/
def skip_whitespace_go : Nat → TSLexer → TSLexer
  | 0, l => l
  | fuel + 1, l =>
      if iswspace (lookahead l) then skip_whitespace_go fuel (skip l) else l

/-- The whitespace-skipping loop at the top of `scan`, with its fuel. -/
def skip_whitespace (l : TSLexer) : TSLexer :=
  skip_whitespace_go (l.input.length - l.pos) l

/-- Function `scan` of `scanner.c` (lines 421–477): the dispatch entry point, keyed
on the validity vector and then on the lookahead character. -/
def scan (env : TagEnv) (s : Scanner) (l : TSLexer)
    (valid_symbols : TokenType → Bool) : Bool × Scanner × TSLexer :=
  if valid_symbols HTML_RAW_TEXT && !valid_symbols HTML_START_TAG_NAME &&
      !valid_symbols HTML_END_TAG_NAME then
    scan_raw_text s l
  else
    let l := skip_whitespace l
    if valid_symbols MUSTACHE_IDENTIFIER_CONTENT then
      let (b, l') := scan_mustache_identifier_content l
      (b, s, l')
    else if valid_symbols MUSTACHE_START_TAG_NAME then
      scan_mustache_start_tag_name s l
    else if valid_symbols MUSTACHE_END_TAG_NAME ||
        valid_symbols MUSTACHE_ERRONEOUS_END_TAG_NAME then
      scan_mustache_end_tag_name s l
    else if lookahead l == 60 then
      let l1 := advance (markEnd l)
      if lookahead l1 == 33 then
        let (b, l2) := scan_html_comment (advance l1)
        (b, s, l2)
      else if valid_symbols HTML_IMPLICIT_END_TAG then
        scan_implicit_end_tag env s l1
      else (false, s, l1)
    else if lookahead l == 0 then
      if valid_symbols HTML_IMPLICIT_END_TAG then
        scan_implicit_end_tag env s l
      else (false, s, l)
    else if lookahead l == 47 then
      if valid_symbols HTML_SELF_CLOSING_TAG_DELIMITER then
        scan_self_closing_tag_delimiter s l
      else (false, s, l)
    else
      if (valid_symbols HTML_START_TAG_NAME || valid_symbols HTML_END_TAG_NAME)
          && !valid_symbols HTML_RAW_TEXT then
        if valid_symbols HTML_START_TAG_NAME then scan_start_tag_name env s l
        else scan_end_tag_name env s l
      else (false, s, l)

/-! ## Helper lemmas about `scan_implicit_end_tag` -/

/-- Case analysis of `scan_implicit_end_tag_rest`: every branch either
declines leaving the stack as it was, or pops exactly the top entry and
emits the implicit-end-tag token. -/
lemma scan_implicit_end_tag_rest_cases (env : TagEnv) (s : Scanner)
    (ic : Bool) (l : TSLexer) :
    ((scan_implicit_end_tag_rest env s ic l).1 = false ∧
      (scan_implicit_end_tag_rest env s ic l).2.1.tags = s.tags) ∨
    ((scan_implicit_end_tag_rest env s ic l).1 = true ∧ s.tags ≠ [] ∧
      (scan_implicit_end_tag_rest env s ic l).2.1.tags = s.tags.dropLast ∧
      (scan_implicit_end_tag_rest env s ic l).2.2.result_symbol =
        some HTML_IMPLICIT_END_TAG) := by
  unfold scan_implicit_end_tag_rest
  rcases hscan : scan_html_tag_name l with ⟨name, l2⟩
  simp only []
  split
  · exact Or.inl ⟨rfl, rfl⟩
  · split
    · split
      · exact Or.inl ⟨rfl, rfl⟩
      · split
        · rename_i hany
          rcases List.any_eq_true.mp hany with ⟨t, ht, _⟩
          exact Or.inr ⟨rfl, List.ne_nil_of_mem ht, rfl, rfl⟩
        · exact Or.inl ⟨rfl, rfl⟩
    · split
      · rename_i parent hlast
        have hne : s.tags ≠ [] := by
          intro h
          rw [h] at hlast
          simp at hlast
        split
        · exact Or.inr ⟨rfl, hne, rfl, rfl⟩
        · exact Or.inl ⟨rfl, rfl⟩
      · exact Or.inl ⟨rfl, rfl⟩

/-- C5: for every tag environment, scanner state and input, a single call
to `scan_implicit_end_tag` either declines (returns `false`) with the
open-element stack exactly as it was, or returns `true` having popped
exactly one entry off the open-element stack (so the stack was non-empty)
and emitted the implicit-end-tag token; no call pops more than one entry or
pushes anything. -/
theorem implicit_end_tag_pops_at_most_one (env : TagEnv) (s : Scanner)
    (l : TSLexer) :
    ((scan_implicit_end_tag env s l).1 = false ∧
      (scan_implicit_end_tag env s l).2.1.tags = s.tags) ∨
    ((scan_implicit_end_tag env s l).1 = true ∧ s.tags ≠ [] ∧
      (scan_implicit_end_tag env s l).2.1.tags = s.tags.dropLast ∧
      (scan_implicit_end_tag env s l).2.2.result_symbol =
        some HTML_IMPLICIT_END_TAG) := by
  unfold scan_implicit_end_tag
  split
  · exact scan_implicit_end_tag_rest_cases env s true (advance l)
  · split
    · rename_i hvoid
      have hne : s.tags ≠ [] := by
        intro h
        rw [h] at hvoid
        simp at hvoid
      exact Or.inr ⟨rfl, hne, rfl, rfl⟩
    · exact scan_implicit_end_tag_rest_cases env s false l

/-- C7: when the open-element stack's top entry is a void element and the
lookahead is not `/` (not an explicit close attempt), `scan_implicit_end_tag`
pops the top entry and emits the implicit-end-tag token unconditionally;
the returned lexer is `setResult l HTML_IMPLICIT_END_TAG`, whose cursor
is the unmoved input cursor — the upcoming tag name is never inspected. -/
theorem implicit_end_tag_void_top (env : TagEnv) (s : Scanner) (l : TSLexer)
    (top : Tag) (htop : s.tags.getLast? = some top)
    (hvoid : env.isVoid top = true) (hlk : lookahead l ≠ 47) :
    scan_implicit_end_tag env s l =
      (true, pop_html_tag s, setResult l HTML_IMPLICIT_END_TAG) := by
  unfold scan_implicit_end_tag
  rw [if_neg (by simpa using hlk)]
  rw [htop]
  simp [hvoid]

/-- C6: on an explicit close attempt (lookahead `/`), with `name` the tag
name scanned after the `/` (assumed non-empty), `scan_implicit_end_tag`
(1) declines without modifying the stack when the classified name is
`tag_eq`-equal to the stack top; otherwise (2) pops the topmost entry and
emits the implicit-end-tag token when some entry anywhere in the stack has
the classified name's kind; and (3) declines with the stack untouched when
no entry's kind matches. -/
theorem implicit_end_tag_explicit_close (env : TagEnv) (s : Scanner)
    (l : TSLexer) (name : List Nat) (l2 : TSLexer)
    (hlk : lookahead l = 47)
    (hscan : scan_html_tag_name (advance l) = (name, l2))
    (hne : name ≠ []) :
    ((∃ top, s.tags.getLast? = some top ∧
        tag_eq top (env.forName name) = true) →
      scan_implicit_end_tag env s l = (false, s, l2)) ∧
    ((∀ top, s.tags.getLast? = some top →
        tag_eq top (env.forName name) = false) →
      (s.tags.any (fun t => t.type == (env.forName name).type) = true →
        scan_implicit_end_tag env s l =
          (true, pop_html_tag s, setResult l2 HTML_IMPLICIT_END_TAG)) ∧
      (s.tags.any (fun t => t.type == (env.forName name).type) = false →
        scan_implicit_end_tag env s l = (false, s, l2))) := by
  have hempty : name.isEmpty = false := by
    cases name with
    | nil => exact absurd rfl hne
    | cons a as => rfl
  unfold scan_implicit_end_tag scan_implicit_end_tag_rest
  rw [if_pos (by simpa using hlk), hscan]
  simp only [hempty, Bool.false_and, Bool.false_eq_true, if_false]
  constructor
  · rintro ⟨top, htop, heq⟩
    rw [htop]
    simp [heq]
  · intro hnotop
    cases htop : s.tags.getLast? with
    | none =>
        constructor
        · intro hany
          simp [hany]
        · intro hany
          simp [hany]
    | some top =>
        have := hnotop top htop
        constructor
        · intro hany
          simp [this, hany]
        · intro hany
          simp [this, hany]

/-- C8: with `name` the (non-empty) section-close name scanned by
`scan_mustache_tag_name`, `scan_mustache_end_tag_name` compares `name`
against the stack top by name equality only (`html_tag_stack_size` plays no
part): on a byte-for-byte name match it pops the top entry and emits the
section-end-name token; on a mismatch, or with an empty open-section stack,
it emits the erroneous-section-end-name token and leaves the open-section
stack completely unchanged. -/
theorem mustache_end_tag_name_matches_by_name (s : Scanner) (l : TSLexer)
    (name : List Nat) (l' : TSLexer)
    (hscan : scan_mustache_tag_name l = (name, l'))
    (hne : name ≠ []) :
    (∀ top, s.mustache_tags.getLast? = some top →
      (top.tag_name = name →
        scan_mustache_end_tag_name s l =
          (true, { s with mustache_tags := s.mustache_tags.dropLast },
            setResult l' MUSTACHE_END_TAG_NAME)) ∧
      (top.tag_name ≠ name →
        scan_mustache_end_tag_name s l =
          (true, s, setResult l' MUSTACHE_ERRONEOUS_END_TAG_NAME))) ∧
    (s.mustache_tags.getLast? = none →
      scan_mustache_end_tag_name s l =
        (true, s, setResult l' MUSTACHE_ERRONEOUS_END_TAG_NAME)) := by
  have hempty : name.isEmpty = false := by
    cases name with
    | nil => exact absurd rfl hne
    | cons a as => rfl
  unfold scan_mustache_end_tag_name
  rw [hscan]
  simp only [hempty, Bool.false_eq_true, if_false]
  constructor
  · intro top htop
    rw [htop]
    constructor
    · intro heq
      simp [mustache_tag_eq, heq]
    · intro hneq
      simp [mustache_tag_eq, hneq]
  · intro htop
    rw [htop]
    simp

/-- The validity vector with only the implicit-end-tag token valid. -/
def validImplicitOnly : TokenType → Bool :=
  fun t => t == HTML_IMPLICIT_END_TAG

/-- The lexer positioned at the start of the input `</br>`. -/
def lexSlashBr : TSLexer :=
  { input := [60, 47, 98, 114, 62], pos := 0, result_symbol := none,
    marked_end := 0 }

/-- C9: for every tag environment, scanning `</br>` with an empty
open-element stack and the implicit-end-tag token valid declines (returns
`false`, emits no token) and leaves the open-element stack empty: no pop
below depth zero occurs. -/
theorem empty_stack_explicit_close_declines (env : TagEnv) :
    scan env { tags := [], mustache_tags := [] } lexSlashBr validImplicitOnly =
      (false, { tags := [], mustache_tags := [] },
        { input := [60, 47, 98, 114, 62], pos := 4, result_symbol := none,
          marked_end := 0 }) := by
  simp [scan, validImplicitOnly, lexSlashBr, skip_whitespace, skip_whitespace_go,
    lookahead, iswspace, advance, markEnd, scan_implicit_end_tag,
    scan_implicit_end_tag_rest, scan_html_tag_name, scan_html_tag_name_go,
    iswalnum, towupper, atEof, skip]

/-- At a cursor inside the input, the lookahead is the element there. -/
lemma lookahead_eq_getElem (l : TSLexer) (h : l.pos < l.input.length) :
    lookahead l = l.input[l.pos] := by
  unfold lookahead
  rw [List.get?_eq_get h]
  rfl

/-- Past the end of the input the lookahead is 0. -/
lemma lookahead_eq_zero (l : TSLexer) (h : l.input.length ≤ l.pos) :
    lookahead l = 0 := by
  unfold lookahead
  rw [List.get?_eq_none.mpr h]
  rfl

/-- The remaining input decomposes as the lookahead followed by the input
after one `advance`. -/
lemma drop_pos_eq (l : TSLexer) (h : l.pos < l.input.length) :
    l.input.drop l.pos = lookahead l :: l.input.drop (l.pos + 1) := by
  rw [List.drop_eq_getElem_cons h, lookahead_eq_getElem l h]

/-- Invariant of `scan_mustache_identifier_go`: with enough fuel, the loop
returns `true` iff a terminator occurs in the remaining input (the loop did
not run off the end) and either some non-terminator character precedes it
(content was consumed) or content had already been recorded; and a `true`
return has set the identifier-content result symbol. -/
lemma scan_mustache_identifier_go_spec (fuel : Nat) :
    ∀ (l : TSLexer) (hc : Bool), l.input.length - l.pos < fuel →
      ((scan_mustache_identifier_go fuel l hc).1 = true ↔
        ((hc = true ∨
            (l.input.drop l.pos).takeWhile (fun c => !isMustacheIdTerm c) ≠ []) ∧
          (l.input.drop l.pos).dropWhile (fun c => !isMustacheIdTerm c) ≠ [])) ∧
      ((scan_mustache_identifier_go fuel l hc).1 = true →
        (scan_mustache_identifier_go fuel l hc).2.result_symbol =
          some MUSTACHE_IDENTIFIER_CONTENT) := by
  induction fuel with
  | zero => intro l hc h; omega
  | succ n ih =>
      intro l hc hfuel
      by_cases hterm : isMustacheIdTerm (lookahead l) = true
      · -- terminator at the cursor: the loop exits, `hc` decides the result
        have hlt : l.pos < l.input.length := by
          by_contra hge
          rw [lookahead_eq_zero l (by omega)] at hterm
          simp [isMustacheIdTerm, iswspace] at hterm
        unfold scan_mustache_identifier_go
        rw [drop_pos_eq l hlt]
        simp only [hterm, Bool.not_true, Bool.false_eq_true, if_false,
          List.takeWhile_cons, List.dropWhile_cons]
        cases hc with
        | false => simp [hterm]
        | true => simp [hterm, setResult]
      · -- no terminator at the cursor
        have hterm' : isMustacheIdTerm (lookahead l) = false :=
          Bool.eq_false_iff.mpr hterm
        by_cases heof : atEof l = true
        · -- end of input inside the loop: decline
          have hdrop : l.input.drop l.pos = [] :=
            List.drop_eq_nil_of_le (by simpa [atEof] using heof)
          unfold scan_mustache_identifier_go
          simp [hterm', heof, hdrop]
        · -- consume the character and continue with content recorded
          have hlt : l.pos < l.input.length := by
            simp [atEof] at heof
            omega
          have hrec := ih (advance l) true (by simp [advance]; omega)
          unfold scan_mustache_identifier_go
          simp only [hterm', Bool.not_false, if_true, heof,
            Bool.false_eq_true, if_false]
          rw [drop_pos_eq l hlt]
          simp only [List.takeWhile_cons, List.dropWhile_cons, hterm',
            Bool.not_false, if_true]
          constructor
          · rw [hrec.1]
            simp [advance]
          · exact hrec.2


/-- C10: `scan_mustache_identifier_content` emits the identifier-content
token (returns `true`, setting the result symbol) if and only if it
consumes at least one character (the remaining input starts with a
non-terminator, i.e. its maximal non-terminator prefix is non-empty) and
then stops at a terminator character `}`, `.` or whitespace (a terminator
exists in the remaining input, i.e. what is left after that prefix is
non-empty); whenever end-of-input is reached before a terminator it
declines, even if characters were already consumed. -/
theorem mustache_identifier_content_iff (l : TSLexer) :
    ((scan_mustache_identifier_content l).1 = true ↔
      ((l.input.drop l.pos).takeWhile (fun c => !isMustacheIdTerm c) ≠ [] ∧
        (l.input.drop l.pos).dropWhile (fun c => !isMustacheIdTerm c) ≠ [])) ∧
    ((scan_mustache_identifier_content l).1 = true →
      (scan_mustache_identifier_content l).2.result_symbol =
        some MUSTACHE_IDENTIFIER_CONTENT) := by
  have h := scan_mustache_identifier_go_spec (l.input.length - l.pos + 1) l
    false (by omega)
  unfold scan_mustache_identifier_content
  refine ⟨?_, h.2⟩
  rw [h.1]
  simp

/-- The scanner state at the moment a mustache section opens inside one
open HTML element (open-element stack depth 1). -/
def scannerDepthOne : Scanner :=
  { tags := [{ type := DIVK, custom_tag_name := [] }], mustache_tags := [] }

/-- The lexer positioned at the name of `{{#items}}`, i.e. at `items}}`. -/
def lexItems : TSLexer :=
  { input := [105, 116, 101, 109, 115, 125, 125], pos := 0,
    result_symbol := none, marked_end := 0 }

/-- C1 (failing-input evaluation): with the open-element stack at depth 1,
successfully scanning the section-open name `items` pushes a `MustacheTag`
whose `html_tag_stack_size` is 0, not the open-element stack depth 1:
`scan_mustache_start_tag_name` pushes `mustache_tag_new()` after setting
only its name, and nothing in `scanner.c` ever stores the stack depth into
`html_tag_stack_size`. -/
theorem mustache_start_tag_ignores_html_depth :
    (scan_mustache_start_tag_name scannerDepthOne lexItems).1 = true ∧
    ((scan_mustache_start_tag_name scannerDepthOne lexItems).2.1.mustache_tags.map
        (fun t => t.html_tag_stack_size)) = [0] ∧
    scannerDepthOne.tags.length = 1 := by
  decide

/-- A concrete tag environment instantiating the `tag.h` interface for the
witnesses: every name classifies as a `CUSTOM` tag carrying the name,
`BR`-kind tags are void, and containment always holds. -/
def sampleEnv : TagEnv :=
  { forName := fun n => { type := CUSTOM, custom_tag_name := n },
    isVoid := fun t => t.type == BR,
    canContain := fun _ _ => true }

/-- Witness for C7: a scanner whose stack top is a void `BR` tag, on input
`x` (not a close attempt), pops it and emits the implicit end tag. -/
theorem implicit_end_tag_void_top_witness :
    scan_implicit_end_tag sampleEnv
        { tags := [{ type := BR, custom_tag_name := [] }], mustache_tags := [] }
        { input := [120], pos := 0, result_symbol := none, marked_end := 0 } =
      (true, { tags := [], mustache_tags := [] },
        { input := [120], pos := 0,
          result_symbol := some HTML_IMPLICIT_END_TAG, marked_end := 0 }) := by
  have h := implicit_end_tag_void_top sampleEnv
    { tags := [{ type := BR, custom_tag_name := [] }], mustache_tags := [] }
    { input := [120], pos := 0, result_symbol := none, marked_end := 0 }
    { type := BR, custom_tag_name := [] } (by decide) (by decide) (by decide)
  exact h.trans (by decide)

/-- Witness for C6: on the explicit close `/b` with the stack holding the
single custom tag `A` (so the scanned name `B` differs from the top by
name but matches its `CUSTOM` kind), `scan_implicit_end_tag` pops the top
and emits the implicit end tag. -/
theorem implicit_end_tag_explicit_close_witness :
    scan_implicit_end_tag sampleEnv
        { tags := [{ type := CUSTOM, custom_tag_name := [65] }],
          mustache_tags := [] }
        { input := [47, 98, 62], pos := 0, result_symbol := none,
          marked_end := 0 } =
      (true, { tags := [], mustache_tags := [] },
        { input := [47, 98, 62], pos := 2,
          result_symbol := some HTML_IMPLICIT_END_TAG, marked_end := 0 }) := by
  have h := (implicit_end_tag_explicit_close sampleEnv
    { tags := [{ type := CUSTOM, custom_tag_name := [65] }], mustache_tags := [] }
    { input := [47, 98, 62], pos := 0, result_symbol := none, marked_end := 0 }
    [66]
    { input := [47, 98, 62], pos := 2, result_symbol := none, marked_end := 0 }
    (by decide) (by decide) (by decide)).2
  exact ((h (by intro top htop; simp at htop; rw [← htop]; decide)).1
    (by decide)).trans (by decide)

/-- Witness for C8: closing name `b` against a stack whose top section is
`a` emits the erroneous-section-end token and leaves the open-section
stack unchanged. -/
theorem mustache_end_tag_name_matches_by_name_witness :
    scan_mustache_end_tag_name
        { tags := [],
          mustache_tags := [{ tag_name := [97], html_tag_stack_size := 0 }] }
        { input := [98, 125, 125], pos := 0, result_symbol := none,
          marked_end := 0 } =
      (true,
        { tags := [],
          mustache_tags := [{ tag_name := [97], html_tag_stack_size := 0 }] },
        { input := [98, 125, 125], pos := 1,
          result_symbol := some MUSTACHE_ERRONEOUS_END_TAG_NAME,
          marked_end := 0 }) := by
  have h := ((mustache_end_tag_name_matches_by_name
    { tags := [],
      mustache_tags := [{ tag_name := [97], html_tag_stack_size := 0 }] }
    { input := [98, 125, 125], pos := 0, result_symbol := none, marked_end := 0 }
    [98]
    { input := [98, 125, 125], pos := 1, result_symbol := none, marked_end := 0 }
    (by decide) (by decide)).1
    { tag_name := [97], html_tag_stack_size := 0 } (by decide)).2 (by decide)
  exact h.trans (by decide)

/-! ## Serialization round-trip machinery -/

/-- C `strncpy` stores exactly `n` bytes. -/
lemma strncpy_bytes_length (n : Nat) :
    ∀ src : List Nat, (strncpy_bytes src n).length = n := by
  induction n with
  | zero => intro src; cases src <;> simp [strncpy_bytes]
  | succ n ih =>
      intro src
      cases src with
      | nil => simp [strncpy_bytes, ih]
      | cons c cs =>
          by_cases hc : c = 0
          · simp [strncpy_bytes, hc]
          · simp [strncpy_bytes, hc, ih]

/-- On a NUL-free source, `strncpy` of at most the source length is a plain
prefix copy. -/
lemma strncpy_bytes_eq_take (n : Nat) :
    ∀ src : List Nat, 0 ∉ src → n ≤ src.length →
      strncpy_bytes src n = src.take n := by
  induction n with
  | zero => intro src _ _; cases src <;> simp [strncpy_bytes]
  | succ n ih =>
      intro src h0 hn
      cases src with
      | nil => simp at hn
      | cons c cs =>
          have hc : ¬c = 0 := fun h => h0 (h ▸ List.mem_cons_self c cs)
          have h0' : 0 ∉ cs := fun h => h0 (List.mem_cons_of_mem c h)
          simp only [strncpy_bytes, beq_iff_eq, if_neg hc, List.take_succ_cons]
          rw [ih cs h0' (by simpa using hn)]

/-- The HTML entry loop never writes more entries than it was given. -/
lemma serialize_html_tags_count_le (ts : List Tag) :
    ∀ sz, (serialize_html_tags ts sz).2 ≤ ts.length := by
  induction ts with
  | nil => intro sz; simp [serialize_html_tags]
  | cons t rest ih =>
      intro sz
      simp only [serialize_html_tags]
      split
      · split
        · simp
        · have := ih (sz + 2 + min t.custom_tag_name.length 255)
          rcases h : serialize_html_tags rest
              (sz + 2 + min t.custom_tag_name.length 255) with ⟨bs, c⟩
          rw [h] at this
          simpa using Nat.succ_le_succ this
      · split
        · simp
        · have := ih (sz + 1)
          rcases h : serialize_html_tags rest (sz + 1) with ⟨bs, c⟩
          rw [h] at this
          simpa using Nat.succ_le_succ this

/-- Each serialized HTML entry occupies at least one byte. -/
lemma serialize_html_tags_count_le_len (ts : List Tag) :
    ∀ sz, (serialize_html_tags ts sz).2 ≤ (serialize_html_tags ts sz).1.length := by
  induction ts with
  | nil => intro sz; simp [serialize_html_tags]
  | cons t rest ih =>
      intro sz
      simp only [serialize_html_tags]
      split
      · split
        · simp
        · have := ih (sz + 2 + min t.custom_tag_name.length 255)
          rcases h : serialize_html_tags rest
              (sz + 2 + min t.custom_tag_name.length 255) with ⟨bs, c⟩
          rw [h] at this
          simp only [Prod.fst, Prod.snd] at this
          simp [strncpy_bytes_length]
          omega
      · split
        · simp
        · have := ih (sz + 1)
          rcases h : serialize_html_tags rest (sz + 1) with ⟨bs, c⟩
          rw [h] at this
          simp only [Prod.fst, Prod.snd] at this
          simp
          omega

/-- The HTML entry loop keeps its write cursor at or below 1023. -/
lemma serialize_html_tags_size_le (ts : List Tag) :
    ∀ sz, sz + (serialize_html_tags ts sz).1.length ≤ max sz 1023 := by
  induction ts with
  | nil => intro sz; simp [serialize_html_tags]
  | cons t rest ih =>
      intro sz
      have hmax : 1023 ≤ max sz 1023 := Nat.le_max_right sz 1023
      have hmax' : sz ≤ max sz 1023 := Nat.le_max_left sz 1023
      simp only [serialize_html_tags, TREE_SITTER_SERIALIZATION_BUFFER_SIZE]
      split
      · split
        · simp
        · rename_i hbrk
          have hsz : sz + 2 + min t.custom_tag_name.length 255 ≤ 1023 := by
            omega
          have := ih (sz + 2 + min t.custom_tag_name.length 255)
          rw [Nat.max_eq_right hsz] at this
          rcases h : serialize_html_tags rest
              (sz + 2 + min t.custom_tag_name.length 255) with ⟨bs, c⟩
          rw [h] at this
          simp only [Prod.fst, Prod.snd] at this
          simp [strncpy_bytes_length]
          omega
      · split
        · simp
        · rename_i hbrk
          have hsz : sz + 1 ≤ 1023 := by omega
          have := ih (sz + 1)
          rw [Nat.max_eq_right hsz] at this
          rcases h : serialize_html_tags rest (sz + 1) with ⟨bs, c⟩
          rw [h] at this
          simp only [Prod.fst, Prod.snd] at this
          simp
          omega

/-- The mustache entry loop never writes more entries than it was given. -/
lemma serialize_mustache_tags_count_le (ts : List MustacheTag) :
    ∀ sz, (serialize_mustache_tags ts sz).2 ≤ ts.length := by
  induction ts with
  | nil => intro sz; simp [serialize_mustache_tags]
  | cons t rest ih =>
      intro sz
      simp only [serialize_mustache_tags]
      split
      · simp
      · have := ih (sz + 1 + min t.tag_name.length 255)
        rcases h : serialize_mustache_tags rest
            (sz + 1 + min t.tag_name.length 255) with ⟨bs, c⟩
        rw [h] at this
        simpa using Nat.succ_le_succ this

/-- Each serialized mustache entry occupies at least one byte. -/
lemma serialize_mustache_tags_count_le_len (ts : List MustacheTag) :
    ∀ sz, (serialize_mustache_tags ts sz).2 ≤
      (serialize_mustache_tags ts sz).1.length := by
  induction ts with
  | nil => intro sz; simp [serialize_mustache_tags]
  | cons t rest ih =>
      intro sz
      simp only [serialize_mustache_tags]
      split
      · simp
      · have := ih (sz + 1 + min t.tag_name.length 255)
        rcases h : serialize_mustache_tags rest
            (sz + 1 + min t.tag_name.length 255) with ⟨bs, c⟩
        rw [h] at this
        simp only [Prod.fst, Prod.snd] at this
        simp [strncpy_bytes_length]
        omega

/-- The mustache entry loop keeps its write cursor at or below 1023. -/
lemma serialize_mustache_tags_size_le (ts : List MustacheTag) :
    ∀ sz, sz + (serialize_mustache_tags ts sz).1.length ≤ max sz 1023 := by
  induction ts with
  | nil => intro sz; simp [serialize_mustache_tags]
  | cons t rest ih =>
      intro sz
      have hmax : 1023 ≤ max sz 1023 := Nat.le_max_right sz 1023
      have hmax' : sz ≤ max sz 1023 := Nat.le_max_left sz 1023
      simp only [serialize_mustache_tags, TREE_SITTER_SERIALIZATION_BUFFER_SIZE]
      split
      · simp
      · rename_i hbrk
        have hsz : sz + 1 + min t.tag_name.length 255 ≤ 1023 := by omega
        have := ih (sz + 1 + min t.tag_name.length 255)
        rw [Nat.max_eq_right hsz] at this
        rcases h : serialize_mustache_tags rest
            (sz + 1 + min t.tag_name.length 255) with ⟨bs, c⟩
        rw [h] at this
        simp only [Prod.fst, Prod.snd] at this
        simp [strncpy_bytes_length]
        omega

/-- The image of an HTML tag under serialization: the kind byte, and the
name as `strncpy` stores it (capped at 255 bytes, zero-filled from an
embedded NUL on) for `CUSTOM` entries, no name otherwise. -/
def encTag (t : Tag) : Tag :=
  if t.type == CUSTOM then
    { type := t.type,
      custom_tag_name :=
        strncpy_bytes t.custom_tag_name (min t.custom_tag_name.length 255) }
  else { type := t.type, custom_tag_name := [] }

/-- The image of a mustache tag under serialization: the name as `strncpy`
stores it; `html_tag_stack_size` is not serialized, so the deserialized
entry carries `mustache_tag_new`'s value 0. -/
def encMTag (m : MustacheTag) : MustacheTag :=
  { mustache_tag_new with
      tag_name := strncpy_bytes m.tag_name (min m.tag_name.length 255) }

/-- On byte-sized kinds, `encTag` of a well-formed tag (no name outside
`CUSTOM`) with a NUL-free name of at most 255 bytes is the tag itself. -/
lemma encTag_eq_self (t : Tag) (hn : t.type ≠ CUSTOM → t.custom_tag_name = [])
    (h0 : 0 ∉ t.custom_tag_name) (hlen : t.custom_tag_name.length ≤ 255) :
    encTag t = t := by
  unfold encTag
  by_cases hc : t.type = CUSTOM
  · rw [if_pos (by simpa using hc)]
    rw [Nat.min_eq_left hlen,
      strncpy_bytes_eq_take t.custom_tag_name.length t.custom_tag_name h0
        (Nat.le_refl _), List.take_length]
  · rw [if_neg (by simpa using hc)]
    rw [← hn hc]

/-- On a NUL-free name of at most 255 bytes, `encMTag` preserves the name. -/
lemma encMTag_name (m : MustacheTag) (h0 : 0 ∉ m.tag_name)
    (hlen : m.tag_name.length ≤ 255) :
    (encMTag m).tag_name = m.tag_name := by
  unfold encMTag
  simp only [Nat.min_eq_left hlen]
  rw [strncpy_bytes_eq_take m.tag_name.length m.tag_name h0 (Nat.le_refl _),
    List.take_length]

/-- Reading back a 16-bit count written little-endian. -/
lemma read_u16_u16le (n : Nat) (rest : List Nat) (h : n < 65536) :
    read_u16 (u16le n ++ rest) = n := by
  have hdiv : n / 256 < 256 := by omega
  simp [read_u16, u16le, List.headD, List.tail, Nat.mod_eq_of_lt hdiv]
  omega

/-- Decoding the bytes the HTML entry loop wrote, with anything appended
after them, recovers the `encTag`-images of the written entries and leaves
the appended bytes. -/
lemma deserialize_serialize_html_tags (ts : List Tag) :
    ∀ (sz : Nat) (suffix : List Nat), (∀ t ∈ ts, t.type < 256) →
      deserialize_html_tags (serialize_html_tags ts sz).2
          ((serialize_html_tags ts sz).1 ++ suffix) =
        ((ts.take (serialize_html_tags ts sz).2).map encTag, suffix) := by
  induction ts with
  | nil => intro sz suffix _; simp [serialize_html_tags, deserialize_html_tags]
  | cons t rest ih =>
      intro sz suffix hwf
      have hwt : t.type < 256 := hwf t (List.mem_cons_self t rest)
      have hmod : t.type % 256 = t.type := Nat.mod_eq_of_lt hwt
      have hwf' : ∀ u ∈ rest, u.type < 256 :=
        fun u hu => hwf u (List.mem_cons_of_mem t hu)
      simp only [serialize_html_tags]
      by_cases hc : (t.type == CUSTOM) = true
      · rw [if_pos hc]
        split
        · simp [deserialize_html_tags]
        · rcases h : serialize_html_tags rest
              (sz + 2 + min t.custom_tag_name.length 255) with ⟨bs, c⟩
          have := ih (sz + 2 + min t.custom_tag_name.length 255) suffix hwf'
          rw [h] at this
          simp only [Prod.fst, Prod.snd] at this
          simp only [Prod.fst, Prod.snd, deserialize_html_tags, List.cons_append,
            List.headD, List.tail, hmod, hc, if_true]
          have hlen : (strncpy_bytes t.custom_tag_name
              (min t.custom_tag_name.length 255)).length =
              min t.custom_tag_name.length 255 :=
            strncpy_bytes_length _ _
          rw [List.append_assoc]
          rw [List.take_left' hlen, List.drop_left' hlen]
          rw [this]
          simp [List.take_succ_cons, encTag, hc]
      · rw [if_neg (by simpa using hc)]
        split
        · simp [deserialize_html_tags]
        · rcases h : serialize_html_tags rest (sz + 1) with ⟨bs, c⟩
          have := ih (sz + 1) suffix hwf'
          rw [h] at this
          simp only [Prod.fst, Prod.snd] at this
          simp only [Prod.fst, Prod.snd, deserialize_html_tags, List.cons_append,
            List.headD, List.tail, hmod, hc, if_false]
          rw [this]
          simp [List.take_succ_cons, encTag, hc, tag_new]

/-- Decoding the bytes the mustache entry loop wrote, with anything
appended after them, recovers the `encMTag`-images of the written entries
and leaves the appended bytes. -/
lemma deserialize_serialize_mustache_tags (ts : List MustacheTag) :
    ∀ (sz : Nat) (suffix : List Nat),
      deserialize_mustache_tags (serialize_mustache_tags ts sz).2
          ((serialize_mustache_tags ts sz).1 ++ suffix) =
        ((ts.take (serialize_mustache_tags ts sz).2).map encMTag, suffix) := by
  induction ts with
  | nil =>
      intro sz suffix
      simp [serialize_mustache_tags, deserialize_mustache_tags]
  | cons t rest ih =>
      intro sz suffix
      simp only [serialize_mustache_tags]
      split
      · simp [deserialize_mustache_tags]
      · rcases h : serialize_mustache_tags rest
            (sz + 1 + min t.tag_name.length 255) with ⟨bs, c⟩
        have := ih (sz + 1 + min t.tag_name.length 255) suffix
        rw [h] at this
        simp only [Prod.fst, Prod.snd] at this
        simp only [Prod.fst, Prod.snd, deserialize_mustache_tags,
          List.cons_append, List.headD, List.tail]
        have hlen : (strncpy_bytes t.tag_name (min t.tag_name.length 255)).length =
            min t.tag_name.length 255 := strncpy_bytes_length _ _
        rw [List.append_assoc]
        rw [List.take_left' hlen, List.drop_left' hlen]
        rw [this]
        simp [List.take_succ_cons, encMTag]

/-- Function `serialize`, written out on the two entry-loop results. -/
lemma serialize_eq (s : Scanner) :
    serialize s =
      (u16le (ser_html s).2 ++ u16le (ser_tag_count s) ++ (ser_html s).1 ++
        (u16le (ser_mus s).2 ++ u16le (ser_m_tag_count s) ++ (ser_mus s).1),
       4 + (ser_html s).1.length + 4 + (ser_mus s).1.length) := by
  unfold serialize
  rcases h1 : ser_html s with ⟨hb, sc⟩
  rcases h2 : ser_mus s with ⟨mb, msc⟩
  simp

/-- Dropping a 16-bit field from the front of a buffer. -/
lemma drop_two_u16le (n : Nat) (rest : List Nat) :
    (u16le n ++ rest).drop 2 = rest := by
  simp [u16le]

/-- The serialized HTML entry count is bounded by the written `tag_count`. -/
lemma ser_html_count_le (s : Scanner) : (ser_html s).2 ≤ ser_tag_count s := by
  unfold ser_html
  refine Nat.le_trans (serialize_html_tags_count_le _ 4) ?_
  rw [List.length_take]
  exact Nat.min_le_left _ _

/-- The serialized mustache entry count is bounded by `m_tag_count`. -/
lemma ser_mus_count_le (s : Scanner) : (ser_mus s).2 ≤ ser_m_tag_count s := by
  unfold ser_mus
  refine Nat.le_trans (serialize_mustache_tags_count_le _ _) ?_
  rw [List.length_take]
  exact Nat.min_le_left _ _

/-- Round trip of `serialize` then `deserialize`, for any scanner state
whose kinds are byte codes: each stack comes back as the `enc`-images of
the entries the entry loop wrote, padded with freshly-created empty tags up
to the written logical count. -/
lemma deserialize_serialize (s : Scanner)
    (hwf : ∀ t ∈ s.tags, t.type < 256) :
    deserialize (serialize s).1 (serialize s).2 =
      { tags := ((s.tags.take (ser_tag_count s)).take (ser_html s).2).map encTag
            ++ List.replicate (ser_tag_count s - (ser_html s).2) tag_new,
        mustache_tags :=
          ((s.mustache_tags.take (ser_m_tag_count s)).take (ser_mus s).2).map
              encMTag
            ++ List.replicate (ser_m_tag_count s - (ser_mus s).2)
              mustache_tag_new } := by
  have hsc : (ser_html s).2 < 65536 :=
    Nat.lt_of_le_of_lt (ser_html_count_le s)
      (Nat.lt_of_le_of_lt (Nat.min_le_right _ _) (by omega))
  have htc : ser_tag_count s < 65536 :=
    Nat.lt_of_le_of_lt (Nat.min_le_right _ _) (by omega)
  have hmsc : (ser_mus s).2 < 65536 :=
    Nat.lt_of_le_of_lt (ser_mus_count_le s)
      (Nat.lt_of_le_of_lt (Nat.min_le_right _ _) (by omega))
  have hmc : ser_m_tag_count s < 65536 :=
    Nat.lt_of_le_of_lt (Nat.min_le_right _ _) (by omega)
  have hwf' : ∀ t ∈ s.tags.take (ser_tag_count s), t.type < 256 :=
    fun t ht => hwf t (List.mem_of_mem_take ht)
  have hhtml : deserialize_html_tags (ser_html s).2
      ((ser_html s).1 ++
        (u16le (ser_mus s).2 ++ (u16le (ser_m_tag_count s) ++ (ser_mus s).1))) =
      (((s.tags.take (ser_tag_count s)).take (ser_html s).2).map encTag,
        u16le (ser_mus s).2 ++ (u16le (ser_m_tag_count s) ++ (ser_mus s).1)) :=
    deserialize_serialize_html_tags (s.tags.take (ser_tag_count s)) 4
      (u16le (ser_mus s).2 ++ (u16le (ser_m_tag_count s) ++ (ser_mus s).1)) hwf'
  have hmus : deserialize_mustache_tags (ser_mus s).2 (ser_mus s).1 =
      (((s.mustache_tags.take (ser_m_tag_count s)).take (ser_mus s).2).map
        encMTag, []) := by
    have h := deserialize_serialize_mustache_tags
      (s.mustache_tags.take (ser_m_tag_count s))
      (4 + (ser_html s).1.length + 4) []
    rw [List.append_nil] at h
    exact h
  rw [serialize_eq]
  unfold deserialize
  rw [if_neg (by simp)]
  simp only [List.append_assoc, drop_two_u16le, read_u16_u16le _ _ hsc,
    read_u16_u16le _ _ htc, read_u16_u16le _ _ hmsc, read_u16_u16le _ _ hmc]
  by_cases htc0 : 0 < ser_tag_count s
  · rw [if_pos htc0, hhtml]
    simp only [drop_two_u16le, read_u16_u16le _ _ hmsc, read_u16_u16le _ _ hmc]
    by_cases hmc0 : 0 < ser_m_tag_count s
    · rw [if_pos hmc0, hmus]
    · rw [if_neg hmc0]
      have hmc0' : ser_m_tag_count s = 0 := by omega
      have hmus0 : (ser_mus s).2 = 0 :=
        Nat.le_antisymm (hmc0' ▸ ser_mus_count_le s) (Nat.zero_le _)
      simp [hmc0', hmus0]
  · rw [if_neg htc0]
    have htc0' : ser_tag_count s = 0 := by omega
    have hsc0 : (ser_html s).2 = 0 :=
      Nat.le_antisymm (htc0' ▸ ser_html_count_le s) (Nat.zero_le _)
    have hhb0 : (ser_html s).1 = [] := by
      unfold ser_html
      rw [htc0']
      simp [serialize_html_tags]
    rw [hhb0]
    simp only [List.nil_append, drop_two_u16le, read_u16_u16le _ _ hmsc,
      read_u16_u16le _ _ hmc]
    by_cases hmc0 : 0 < ser_m_tag_count s
    · rw [if_pos hmc0, hmus]
      simp [htc0', hsc0]
    · rw [if_neg hmc0]
      have hmc0' : ser_m_tag_count s = 0 := by omega
      have hmus0 : (ser_mus s).2 = 0 :=
        Nat.le_antisymm (hmc0' ▸ ser_mus_count_le s) (Nat.zero_le _)
      simp [hmc0', hmus0, htc0', hsc0]

/-- Evaluating the HTML entry loop on a stack of plain (non-custom, empty
name) tags that fits: one byte per entry. -/
lemma serialize_html_tags_replicate_plain (n : Nat) :
    ∀ sz, sz + n ≤ 1023 →
      serialize_html_tags
          (List.replicate n { type := DIVK, custom_tag_name := [] }) sz =
        (List.replicate n 7, n) := by
  induction n with
  | zero => intro sz _; simp [serialize_html_tags]
  | succ n ih =>
      intro sz hsz
      rw [List.replicate_succ]
      simp only [serialize_html_tags, TREE_SITTER_SERIALIZATION_BUFFER_SIZE]
      rw [if_neg (by simp [DIVK, CUSTOM]), if_neg (by omega)]
      have := ih (sz + 1) (by omega)
      rw [this]
      simp [DIVK, List.replicate_succ]

/-- Evaluating the HTML entry loop on a stack of plain tags that does not
fit: it fills the buffer up to cursor 1023 and stops. -/
lemma serialize_html_tags_replicate_plain_overflow (n : Nat) :
    ∀ sz, sz ≤ 1023 → 1023 < sz + n →
      serialize_html_tags
          (List.replicate n { type := DIVK, custom_tag_name := [] }) sz =
        (List.replicate (1023 - sz) 7, 1023 - sz) := by
  induction n with
  | zero => intro sz h1 h2; omega
  | succ n ih =>
      intro sz h1 h2
      rw [List.replicate_succ]
      simp only [serialize_html_tags, TREE_SITTER_SERIALIZATION_BUFFER_SIZE]
      rw [if_neg (by simp [DIVK, CUSTOM])]
      by_cases hbrk : 1024 ≤ sz + 1
      · rw [if_pos hbrk]
        have : 1023 - sz = 0 := by omega
        simp [this]
      · rw [if_neg hbrk]
        by_cases hfit : sz + 1 + n ≤ 1023
        · have heq : n = 1023 - (sz + 1) + (sz + 1 + n - 1023) := by omega
          have : sz + 1 + n = 1023 := by omega
          rw [serialize_html_tags_replicate_plain n (sz + 1) hfit]
          have h1023 : 1023 - sz = n + 1 := by omega
          simp [DIVK, h1023, List.replicate_succ]
        · have := ih (sz + 1) (by omega) (by omega)
          rw [this]
          have h1023 : 1023 - sz = (1023 - (sz + 1)) + 1 := by omega
          rw [h1023]
          simp [DIVK, List.replicate_succ]

/-- The scanner state with 1017 plain open HTML elements and no open
sections — deep enough that the HTML part of the buffer ends at write
cursor 1021, past which the mustache count fields do not fit. -/
def scannerDeepStack : Scanner :=
  { tags := List.replicate 1017 { type := DIVK, custom_tag_name := [] },
    mustache_tags := [] }

/-- The HTML part of `serialize` on `scannerDeepStack`. -/
lemma ser_html_scannerDeepStack :
    ser_html scannerDeepStack = (List.replicate 1017 7, 1017) := by
  unfold ser_html ser_tag_count scannerDeepStack
  simp only [List.length_replicate]
  rw [Nat.min_eq_left (by omega), List.take_replicate,
    Nat.min_self]
  exact serialize_html_tags_replicate_plain 1017 4 (by omega)

/-- C2 (failing-input evaluation): on a scanner with 1017 plain open
elements and no open sections, `serialize` returns 1025 — one more than
`TREE_SITTER_SERIALIZATION_BUFFER_SIZE` — and writes 1025 buffer bytes
(indices 0 through 1024): the entry loops bounds-check their writes, but
the four mustache count-field bytes (written here at indices 1021–1024) are
written unconditionally, so the claimed "never writes or counts past the
buffer" fails. -/
theorem serialize_overflows_buffer :
    TREE_SITTER_SERIALIZATION_BUFFER_SIZE < (serialize scannerDeepStack).2 ∧
    (serialize scannerDeepStack).2 = 1025 ∧
    (serialize scannerDeepStack).1.length = 1025 := by
  have h2 : ser_mus scannerDeepStack = ([], 0) := by
    unfold ser_mus ser_m_tag_count scannerDeepStack
    simp [serialize_mustache_tags]
  rw [serialize_eq, ser_html_scannerDeepStack, h2]
  simp only [Prod.fst, Prod.snd, List.length_append, List.length_replicate,
    List.length_nil, List.length_cons, u16le, TREE_SITTER_SERIALIZATION_BUFFER_SIZE]
  norm_num

/-- Predicate for "no truncation occurs in either part": both entry loops wrote as many
entries as the logical counts recorded in the buffer, and no name was
longer than the 8-bit length cap. -/
def serialize_untruncated (s : Scanner) : Bool :=
  ((ser_html s).2 == ser_tag_count s) &&
    ((ser_mus s).2 == ser_m_tag_count s) &&
    s.tags.all (fun t => decide (t.custom_tag_name.length ≤ 255)) &&
    s.mustache_tags.all (fun m => decide (m.tag_name.length ≤ 255))

/-- The HTML entry count actually serialized never exceeds 1019 (the
entries start at cursor 4 and each takes a byte, and the cursor stays at or
below 1023). -/
lemma ser_html_count_le_1019 (s : Scanner) : (ser_html s).2 ≤ 1019 := by
  have h1 := serialize_html_tags_count_le_len (s.tags.take (ser_tag_count s)) 4
  have h2 := serialize_html_tags_size_le (s.tags.take (ser_tag_count s)) 4
  rw [Nat.max_eq_right (by omega)] at h2
  unfold ser_html
  omega

/-- The mustache entry count actually serialized never exceeds 1015. -/
lemma ser_mus_count_le_1015 (s : Scanner) : (ser_mus s).2 ≤ 1015 := by
  have h1 := serialize_mustache_tags_count_le_len
    (s.mustache_tags.take (ser_m_tag_count s)) (4 + (ser_html s).1.length + 4)
  have h2 := serialize_mustache_tags_size_le
    (s.mustache_tags.take (ser_m_tag_count s)) (4 + (ser_html s).1.length + 4)
  unfold ser_mus
  rcases Nat.le_total (4 + (ser_html s).1.length + 4) 1023 with h | h
  · rw [Nat.max_eq_right h] at h2
    omega
  · rw [Nat.max_eq_left h] at h2
    omega

/-- A scanner whose only entry is an open section named `A\x00B` (a name
with an embedded NUL byte). -/
def scannerNulName : Scanner :=
  { tags := [],
    mustache_tags := [{ tag_name := [65, 0, 66], html_tag_stack_size := 0 }] }

/-- C3 (counterexample): `scannerNulName` serializes without truncation in
either part and well within the buffer, yet deserializing the produced
bytes does not restore its section name byte-for-byte — `serialize` copies
names with `strncpy`, which zero-fills from the embedded NUL on, so the
name comes back as `A\x00\x00`. -/
theorem roundtrip_fails_on_nul_name :
    serialize_untruncated scannerNulName = true ∧
    (serialize scannerNulName).2 ≤ TREE_SITTER_SERIALIZATION_BUFFER_SIZE ∧
    (deserialize (serialize scannerNulName).1
          (serialize scannerNulName).2).mustache_tags.map (fun m => m.tag_name) ≠
      scannerNulName.mustache_tags.map (fun m => m.tag_name) := by
  decide

/-- C3 (as amended): for every scanner state that respects the tag data
model (kinds are byte codes, only `CUSTOM` entries carry a name), whose
serialized form fits (no truncation in either part, names within the 8-bit
cap) and whose stored names contain no NUL byte, `serialize` then
`deserialize` restores both stack depths, all HTML entries (kind and name,
hence byte-for-byte) and all section names byte-for-byte. -/
theorem serialize_deserialize_roundtrip (s : Scanner)
    (hwf : ∀ t ∈ s.tags, t.type < 256 ∧
      (t.type ≠ CUSTOM → t.custom_tag_name = []))
    (h0t : ∀ t ∈ s.tags, 0 ∉ t.custom_tag_name)
    (h0m : ∀ m ∈ s.mustache_tags, 0 ∉ m.tag_name)
    (hfit : serialize_untruncated s = true) :
    (deserialize (serialize s).1 (serialize s).2).tags = s.tags ∧
    (deserialize (serialize s).1 (serialize s).2).mustache_tags.map
        (fun m => m.tag_name) =
      s.mustache_tags.map (fun m => m.tag_name) ∧
    (deserialize (serialize s).1 (serialize s).2).tags.length =
      s.tags.length ∧
    (deserialize (serialize s).1 (serialize s).2).mustache_tags.length =
      s.mustache_tags.length := by
  have hfit' := hfit
  unfold serialize_untruncated at hfit'
  simp only [Bool.and_eq_true, beq_iff_eq, List.all_eq_true,
    decide_eq_true_eq] at hfit'
  obtain ⟨⟨⟨hsceq, hmsceq⟩, hlent⟩, hlenm⟩ := hfit'
  have htypes : ∀ t ∈ s.tags, t.type < 256 := fun t ht => (hwf t ht).1
  have hsc1019 := ser_html_count_le_1019 s
  have hmsc1015 := ser_mus_count_le_1015 s
  have hlen_le : s.tags.length ≤ 65535 := by
    by_contra hgt
    have : ser_tag_count s = 65535 := by
      unfold ser_tag_count
      omega
    omega
  have hmlen_le : s.mustache_tags.length ≤ 65535 := by
    by_contra hgt
    have : ser_m_tag_count s = 65535 := by
      unfold ser_m_tag_count
      omega
    omega
  have htceq : ser_tag_count s = s.tags.length := by
    unfold ser_tag_count
    omega
  have hmceq : ser_m_tag_count s = s.mustache_tags.length := by
    unfold ser_m_tag_count
    omega
  have hmap_t : (s.tags.map encTag) = s.tags := by
    have : ∀ t ∈ s.tags, encTag t = t := fun t ht =>
      encTag_eq_self t (hwf t ht).2 (h0t t ht) (hlent t ht)
    calc s.tags.map encTag = s.tags.map id := List.map_congr_left this
    _ = s.tags := List.map_id s.tags
  rw [deserialize_serialize s htypes]
  rw [htceq, List.take_length, hsceq, htceq, List.take_length]
  rw [hmceq, List.take_length, hmsceq, hmceq, List.take_length]
  simp only [htceq, hsceq, hmceq, hmsceq, Nat.sub_self, List.replicate_zero,
    List.append_nil]
  refine ⟨hmap_t, ?_, ?_, ?_⟩
  · rw [List.map_map]
    refine List.map_congr_left ?_
    intro m hm
    exact encMTag_name m (h0m m hm) (hlenm m hm)
  · rw [hmap_t]
  · simp

/-- C4: for every scanner state (with the data model's byte-sized kinds),
whenever serialization truncates a stack (the serialized entry count is
smaller than the logical count written at the front of that part),
`deserialize` of the produced bytes reconstructs that stack with depth
equal to the logical count: the first serialized-count entries equal the
serialized ones (their `encTag`/`encMTag` images — the entries exactly as
the buffer records them) and every remaining entry is a freshly-created
empty placeholder (`tag_new()` / `mustache_tag_new()`); deserialization is
a total function — it never fails.  Both stacks behave this way. -/
theorem deserialize_pads_truncated_state (s : Scanner)
    (hwf : ∀ t ∈ s.tags, t.type < 256) :
    ((ser_html s).2 < ser_tag_count s →
      (deserialize (serialize s).1 (serialize s).2).tags =
        (s.tags.take (ser_html s).2).map encTag ++
          List.replicate (ser_tag_count s - (ser_html s).2) tag_new ∧
      (deserialize (serialize s).1 (serialize s).2).tags.length =
        ser_tag_count s) ∧
    ((ser_mus s).2 < ser_m_tag_count s →
      (deserialize (serialize s).1 (serialize s).2).mustache_tags =
        (s.mustache_tags.take (ser_mus s).2).map encMTag ++
          List.replicate (ser_m_tag_count s - (ser_mus s).2)
            mustache_tag_new ∧
      (deserialize (serialize s).1 (serialize s).2).mustache_tags.length =
        ser_m_tag_count s) := by
  have hsc_le := ser_html_count_le s
  have hmsc_le := ser_mus_count_le s
  have htc_le : ser_tag_count s ≤ s.tags.length := Nat.min_le_left _ _
  have hmc_le : ser_m_tag_count s ≤ s.mustache_tags.length :=
    Nat.min_le_left _ _
  have htags_take : (s.tags.take (ser_tag_count s)).take (ser_html s).2 =
      s.tags.take (ser_html s).2 := by
    rw [List.take_take, Nat.min_eq_left hsc_le]
  have hmus_take :
      (s.mustache_tags.take (ser_m_tag_count s)).take (ser_mus s).2 =
      s.mustache_tags.take (ser_mus s).2 := by
    rw [List.take_take, Nat.min_eq_left hmsc_le]
  rw [deserialize_serialize s hwf, htags_take, hmus_take]
  constructor
  · intro hlt
    refine ⟨rfl, ?_⟩
    rw [List.length_append, List.length_map, List.length_take,
      List.length_replicate]
    have : (ser_html s).2 ≤ s.tags.length := Nat.le_trans hsc_le htc_le
    omega
  · intro hlt
    refine ⟨rfl, ?_⟩
    rw [List.length_append, List.length_map, List.length_take,
      List.length_replicate]
    have : (ser_mus s).2 ≤ s.mustache_tags.length :=
      Nat.le_trans hmsc_le hmc_le
    omega

/-- A scanner state too deep for the buffer: 1020 plain open elements (only
1019 fit) and one open section named `x` (which does not fit at all, the
HTML part having exhausted the buffer). -/
def scannerTruncated : Scanner :=
  { tags := List.replicate 1020 { type := DIVK, custom_tag_name := [] },
    mustache_tags := [{ tag_name := [120], html_tag_stack_size := 3 }] }

/-- The HTML part of `serialize` on `scannerTruncated`: only 1019 of the
1020 entries are written. -/
lemma ser_html_scannerTruncated :
    ser_html scannerTruncated = (List.replicate 1019 7, 1019) := by
  unfold ser_html ser_tag_count scannerTruncated
  simp only [List.length_replicate]
  rw [Nat.min_eq_left (by omega), List.take_replicate, Nat.min_self]
  have h := serialize_html_tags_replicate_plain_overflow 1020 4 (by omega)
    (by omega)
  have h19 : (1023 : Nat) - 4 = 1019 := by norm_num
  rw [h19] at h
  exact h

/-- The mustache part of `serialize` on `scannerTruncated`: the write
cursor starts at 1027, so the single section entry is not written. -/
lemma ser_mus_scannerTruncated : ser_mus scannerTruncated = ([], 0) := by
  have h1 : (ser_html scannerTruncated).1.length = 1019 := by
    rw [ser_html_scannerTruncated]
    exact List.length_replicate 1019 7
  unfold ser_mus
  rw [h1]
  decide

/-- Witness for C4: on `scannerTruncated` both parts truncate (1019 of
1020 HTML entries serialized, 0 of 1 mustache entries), and deserializing
gives back the 1019 serialized entries plus one `tag_new()` placeholder,
and one `mustache_tag_new()` placeholder. -/
theorem deserialize_pads_truncated_state_witness :
    (ser_html scannerTruncated).2 < ser_tag_count scannerTruncated ∧
    (ser_mus scannerTruncated).2 < ser_m_tag_count scannerTruncated ∧
    (deserialize (serialize scannerTruncated).1
        (serialize scannerTruncated).2).tags =
      List.replicate 1019 { type := DIVK, custom_tag_name := [] } ++
        [tag_new] ∧
    (deserialize (serialize scannerTruncated).1
        (serialize scannerTruncated).2).mustache_tags =
      [mustache_tag_new] := by
  have htc : ser_tag_count scannerTruncated = 1020 := by
    unfold ser_tag_count scannerTruncated
    rw [List.length_replicate]
    decide
  have hmc : ser_m_tag_count scannerTruncated = 1 := by
    unfold ser_m_tag_count scannerTruncated
    decide
  have hthm := deserialize_pads_truncated_state scannerTruncated
    (by
      intro t ht
      rw [List.eq_of_mem_replicate ht]
      norm_num [DIVK])
  have hlt1 : (ser_html scannerTruncated).2 < ser_tag_count scannerTruncated := by
    rw [ser_html_scannerTruncated, htc]
    norm_num
  have hlt2 : (ser_mus scannerTruncated).2 < ser_m_tag_count scannerTruncated := by
    rw [ser_mus_scannerTruncated, hmc]
    norm_num
  have c1 := hthm.1 hlt1
  have c2 := hthm.2 hlt2
  rw [ser_html_scannerTruncated, htc] at c1
  rw [ser_mus_scannerTruncated, hmc] at c2
  refine ⟨hlt1, hlt2, ?_, ?_⟩
  · rw [c1.1]
    show ((List.replicate 1020
        { type := DIVK, custom_tag_name := [] } : List Tag).take 1019).map
          encTag ++ _ = _
    rw [List.take_replicate, List.map_replicate]
    have he : encTag { type := DIVK, custom_tag_name := [] } =
        { type := DIVK, custom_tag_name := [] } := by decide
    have hmin : min 1019 1020 = 1019 := by norm_num
    have hsub : 1020 - 1019 = 1 := by norm_num
    rw [hmin, he, hsub, List.replicate_one]
  · rw [c2.1]
    show (([{ tag_name := [120], html_tag_stack_size := 3 }] :
        List MustacheTag).take 0).map _ ++ _ = _
    simp

/-- A small scanner state (two open elements, one a custom tag, and one
open section) whose serialization fits with room to spare. -/
def scannerSmall : Scanner :=
  { tags := [{ type := DIVK, custom_tag_name := [] },
             { type := CUSTOM, custom_tag_name := [65, 66] }],
    mustache_tags := [{ tag_name := [120], html_tag_stack_size := 0 }] }

/-- Witness for C3 (as amended): the round trip restores `scannerSmall`
exactly. -/
theorem serialize_deserialize_roundtrip_witness :
    (deserialize (serialize scannerSmall).1 (serialize scannerSmall).2).tags =
      scannerSmall.tags ∧
    (deserialize (serialize scannerSmall).1
        (serialize scannerSmall).2).mustache_tags.map (fun m => m.tag_name) =
      scannerSmall.mustache_tags.map (fun m => m.tag_name) ∧
    (deserialize (serialize scannerSmall).1
        (serialize scannerSmall).2).tags.length = scannerSmall.tags.length ∧
    (deserialize (serialize scannerSmall).1
        (serialize scannerSmall).2).mustache_tags.length =
      scannerSmall.mustache_tags.length :=
  serialize_deserialize_roundtrip scannerSmall (by decide) (by decide)
    (by decide) (by decide)
